import Mathlib

/-!
Verification of the streaming event pipeline and usage ledger of the
shadow-container-app service.  The definitions below are a shallow embedding
of `src/app/main.py` (usage ledger, stream processor), of
`src/app/plugins/shadow_insights_plugin.py` (retrieval kernel functions) and
of `src/app/tools/searchclient.py` (`SearchUser.search_hybrid`).

Conventions of the embedding:
* Python dicts keyed by strings become association lists
  (`List (String × α)`), with lookup returning the first binding.
* Timestamps (`time.time()` floats) become integers (`Int`); only their
  ordering matters to the code under study.
* Token counts are natural numbers.
* Optional / absent Python attributes become `Option` values.
* Python exceptions become an explicit `Except` layer where the control flow
  of `try`/`except` matters.
-/

/-- Token usage triple, mirroring the dicts
`{"input_tokens": _, "output_tokens": _, "total_tokens": _}` of `main.py`. -/
structure Usage where
  input_tokens : Nat
  output_tokens : Nat
  total_tokens : Nat
deriving DecidableEq, Repr

/-- The all-zero usage record `{"input_tokens": 0, "output_tokens": 0, "total_tokens": 0}`. -/
def zeroUsage : Usage := ⟨0, 0, 0⟩

/-- Element-wise accumulation (the three `+=` statements of `main.py`). -/
def addUsage (a b : Usage) : Usage :=
  ⟨a.input_tokens + b.input_tokens, a.output_tokens + b.output_tokens,
   a.total_tokens + b.total_tokens⟩

/-- Lookup in an association list (Python `d.get(k)` / `k in d`). -/
def aget {α : Type} (m : List (String × α)) (k : String) : Option α :=
  (m.find? (fun p => p.1 == k)).map (fun p => p.2)

/-- Update a key in an association list (Python `d[k] = v`). -/
def aset {α : Type} (m : List (String × α)) (k : String) (v : α) :
    List (String × α) :=
  (k, v) :: m.filter (fun p => p.1 != k)

/-- Delete a key from an association list (Python `del d[k]`). -/
def adel {α : Type} (m : List (String × α)) (k : String) : List (String × α) :=
  m.filter (fun p => p.1 != k)

/-- The module-level mutable state of `main.py`: the two global dicts
`thread_token_usage` and `thread_last_access`. -/
structure LedgerState where
  thread_token_usage : List (String × Usage)
  thread_last_access : List (String × Int)
deriving Repr

/-- The empty ledger (process start). -/
def emptyLedger : LedgerState := ⟨[], []⟩

/-- `MAX_THREAD_AGE_HOURS = 24` from `main.py`. -/
def MAX_THREAD_AGE_HOURS : Int := 24

/-- Embedding of `cleanup_old_threads` (`main.py` lines 80-94): every thread
whose `thread_last_access` timestamp predates `now - 24*3600` is removed from
both dicts. -/
def cleanup_old_threads (st : LedgerState) (now : Int) : LedgerState :=
  let cutoff := now - MAX_THREAD_AGE_HOURS * 3600
  let threads_to_remove :=
    (st.thread_last_access.filter (fun p => decide (p.2 < cutoff))).map (fun p => p.1)
  { thread_token_usage :=
      st.thread_token_usage.filter (fun p => !(decide (p.1 ∈ threads_to_remove))),
    thread_last_access :=
      st.thread_last_access.filter (fun p => !(decide (p.1 ∈ threads_to_remove))) }

/-- Embedding of `get_thread_token_usage` (`main.py` lines 97-102): reads the
usage for a thread, refreshing `thread_last_access` as a side effect when the
thread id is non-empty. -/
def get_thread_token_usage (st : LedgerState) (thread_id : String) (now : Int) :
    Usage × LedgerState :=
  if thread_id ≠ "" then
    (((aget st.thread_token_usage thread_id).getD zeroUsage),
     { st with thread_last_access := aset st.thread_last_access thread_id now })
  else
    (zeroUsage, st)

/-- Embedding of `reset_thread_tokens` (`main.py` lines 194-198): deletes the
`thread_token_usage` entry when present; `thread_last_access` is untouched. -/
def reset_thread_tokens (st : LedgerState) (thread_id : String) : LedgerState :=
  { st with thread_token_usage := adel st.thread_token_usage thread_id }

/-- Shape of one backend response fragment, as probed by
`extract_and_accumulate_tokens` and by `stream_processor`:

* `dumpUsage` — `some u` when `model_dump_json()` exists, parses, and the
  parsed dict has a dict-valued `usage` key yielding `u` (missing numeric
  fields default to 0); `none` when the attribute is missing, parsing raises
  (caught locally), or the `usage` key is absent or not a dict.
* `usageAttr` — `some u` when the fragment has a truthy `usage` attribute
  whose `prompt_tokens`/`completion_tokens`/`total_tokens` read as `u`.
* `metaUsage` — `some u` when the fragment has a truthy `metadata` dict whose
  truthy `usage` entry reads as `u`.
* `thread` — `some i` when `response.thread` is truthy; `i = some s` when the
  thread object has an `id` attribute `s`, `i = none` when it lacks one.
* `content` — `some s` when the fragment has a non-`None` `content`
  attribute whose string form is `s`.
* `name` — `some s` when the fragment has a `name` attribute `s`. -/
structure Response where
  dumpUsage : Option Usage
  usageAttr : Option Usage
  metaUsage : Option Usage
  thread : Option (Option String)
  content : Option String
  name : Option String
deriving Repr

/-- The per-fragment token-extraction policy of `extract_and_accumulate_tokens`
(`main.py` lines 136-179): start from the serialized dump's `usage` dict (if
any); if the running total is still 0, overwrite from the `usage` attribute
when that attribute is present and truthy; otherwise (`elif`) when the running
total is still 0, overwrite from the metadata `usage` entry when present. -/
def extract_current_usage (r : Response) : Usage :=
  let cu : Usage := match r.dumpUsage with
    | some u => u
    | none => zeroUsage
  if cu.total_tokens = 0 then
    match r.usageAttr with
    | some u => ⟨u.input_tokens, u.output_tokens, u.total_tokens⟩
    | none =>
      match r.metaUsage with
      | some u => ⟨u.input_tokens, u.output_tokens, u.total_tokens⟩
      | none => cu
  else cu

/-- Embedding of `extract_and_accumulate_tokens` (`main.py` lines 114-191).
Returns the value returned by the Python function (a copy of the thread's
cumulative record) together with the updated global state.  Note that the
function touches only `thread_token_usage`; `thread_last_access` is passed
through unchanged. -/
def extract_and_accumulate_tokens (st : LedgerState) (r : Response)
    (thread_id : String) : Usage × LedgerState :=
  if thread_id = "" then
    (zeroUsage, st)
  else
    -- "Initialize thread token tracking if not exists"
    let st1 : LedgerState :=
      if aget st.thread_token_usage thread_id = none then
        { st with thread_token_usage := aset st.thread_token_usage thread_id zeroUsage }
      else st
    let current_usage := extract_current_usage r
    if 0 < current_usage.total_tokens then
      let old := (aget st1.thread_token_usage thread_id).getD zeroUsage
      let m2 := aset st1.thread_token_usage thread_id (addUsage old current_usage)
      let st2 : LedgerState := { st1 with thread_token_usage := m2 }
      (((aget st2.thread_token_usage thread_id).getD zeroUsage), st2)
    else
      (((aget st1.thread_token_usage thread_id).getD zeroUsage), st1)

/-- Embedding of `get_all_thread_stats` (`main.py` lines 105-111). -/
def get_all_thread_stats (st : LedgerState) : Nat × Nat :=
  (st.thread_token_usage.length,
   (st.thread_token_usage.map (fun p => p.2.total_tokens)).sum)

/-!  JSON safety (`safe_serialize`, `handle_intermediate_message`). -/

/-- A Python value as seen by `safe_serialize` and `json.dumps`: either one of
the JSON-friendly builtin types (`str`, `int`, `float`, `bool`, `NoneType`,
`list`, `dict`) or an arbitrary other object, represented by its `str()`
rendering. -/
inductive PyVal : Type where
  | pystr (s : String) : PyVal
  | pyint (n : Int) : PyVal
  | pyfloat (repr : String) : PyVal
  | pybool (b : Bool) : PyVal
  | pynone : PyVal
  | pylist (xs : List PyVal) : PyVal
  | pydict (kvs : List (String × PyVal)) : PyVal
  | pyobj (strForm : String) : PyVal

/-- The `isinstance(data, (str, int, float, bool, list, dict, type(None)))`
test of `safe_serialize` (`main.py` lines 292-295). -/
def isJsonInstance : PyVal → Bool
  | .pyobj _ => false
  | _ => true

/-- `str(data)` for the values `safe_serialize` stringifies. -/
def pyStr : PyVal → String
  | .pyobj s => s
  | .pystr s => s
  | .pyfloat s => s
  | .pybool b => if b then "True" else "False"
  | .pynone => "None"
  | .pyint n => toString n
  | .pylist _ => "<list>"
  | .pydict _ => "<dict>"

/-- Embedding of `safe_serialize` (`main.py` lines 292-295): JSON-friendly
builtins pass through unchanged (containers included, without looking inside);
anything else becomes its string form. -/
def safe_serialize (v : PyVal) : PyVal :=
  if isJsonInstance v then v else .pystr (pyStr v)

mutual

/-- Whether `json.dumps` succeeds on a value: every node, recursively, must be
a JSON-friendly builtin; a non-serializable object anywhere raises `TypeError`. -/
def jsonSafe : PyVal → Bool
  | .pystr _ => true
  | .pyint _ => true
  | .pyfloat _ => true
  | .pybool _ => true
  | .pynone => true
  | .pylist xs => jsonSafeList xs
  | .pydict kvs => jsonSafeKVs kvs
  | .pyobj _ => false

/-- `jsonSafe` for every element of a list. -/
def jsonSafeList : List PyVal → Bool
  | [] => true
  | x :: xs => jsonSafe x && jsonSafeList xs

/-- `jsonSafe` for every value of a dict. -/
def jsonSafeKVs : List (String × PyVal) → Bool
  | [] => true
  | kv :: kvs => jsonSafe kv.2 && jsonSafeKVs kvs

end

/-- The `event_data` dict built for a `function_result` item by
`handle_intermediate_message` (`main.py` lines 315-320), before
`json.dumps` is applied to it by `format_sse_event`. -/
def functionResultData (function_name : String) (result : PyVal) : PyVal :=
  .pydict [("type", .pystr "function_result"),
           ("function_name", .pystr function_name),
           ("result", safe_serialize result)]

/-!  The background stream processor (`stream_processor` in `event_stream`,
`main.py` lines 331-452). -/

/-- An event frame placed on the shared `event_queue` (before SSE text
formatting).  Each constructor corresponds to one `format_sse_event` call
site in `main.py`. -/
inductive Event : Type where
  | error (msg : String) : Event
  | thread_info (agent_name : String) (thread_id : String) : Event
  | content (text : String) : Event
  | function_call (function_name : String) (arguments : PyVal) : Event
  | function_result (function_name : String) (result : PyVal) : Event
  | intermediate (s : String) : Event
  | token_usage (thread_id : String) (usage : Usage) : Event
  | stream_complete : Event

/-- One unit of work observed by the background task while
`agent.invoke_stream` runs: either the intermediate-message callback
delivering one item (a function call, a function result, or anything else),
or the async iterator yielding one response fragment. -/
inductive Step : Type where
  | interCall (function_name : String) (arguments : PyVal) : Step
  | interResult (function_name : String) (result : PyVal) : Step
  | interOther (strForm : String) : Step
  | frag (r : Response) : Step

/-- The local state of `stream_processor` while the `async for` loop runs:
`actual_thread_id`, `is_new_thread`, `first_chunk`, the shared ledger, the
events enqueued so far (in queue order), and — as pure instrumentation, read
by no definition — the list of thread ids passed to `reset_thread_tokens`. -/
structure LoopSt where
  actual_thread_id : String
  is_new_thread : Bool
  first_chunk : Bool
  ledger : LedgerState
  events : List Event
  resets : List String

/-- One iteration step of the `async for` body (`main.py` lines 356-387),
including callback deliveries interleaved by `handle_intermediate_message`
(lines 304-329). -/
def procStep (req_threadId : String) (s : LoopSt) : Step → LoopSt
  | .interCall n a =>
      { s with events := s.events ++ [.function_call n a] }
  | .interResult n r =>
      { s with events := s.events ++ [.function_result n r] }
  | .interOther t =>
      { s with events := s.events ++ [.intermediate t] }
  | .frag r =>
      -- "Extract thread ID from response if we didn't have one"
      let actual := match r.thread with
        | some idAttr => idAttr.getD req_threadId
        | none => s.actual_thread_id
      -- "If this is a new thread ..., reset token tracking" (once per request)
      let doReset := s.is_new_thread && actual != ""
      let ledger := if doReset then reset_thread_tokens s.ledger actual else s.ledger
      let resets := if doReset then s.resets ++ [actual] else s.resets
      let is_new := if doReset then false else s.is_new_thread
      -- "Yield thread info on first chunk"
      let evs1 : List Event :=
        if s.first_chunk then
          [.thread_info (r.name.getD "Unknown") (if actual = "" then "Unknown" else actual)]
        else []
      -- "Handle regular response content"
      let text := r.content.getD ""
      let evs2 : List Event := if text.trim ≠ "" then [.content text] else []
      { actual_thread_id := actual, is_new_thread := is_new,
        first_chunk := false,
        ledger := ledger, events := s.events ++ evs1 ++ evs2, resets := resets }

/-- Fold `procStep` over a list of steps. -/
def runLoop (req_threadId : String) (s : LoopSt) : List Step → LoopSt
  | [] => s
  | st :: rest => runLoop req_threadId (procStep req_threadId s st) rest

/-- The complete input determining one execution of `stream_processor`:

* `threadId` — `request.threadId` (empty string means a new conversation).
* `agent_ok` — whether `get_agent()` returned an agent (it returns `None` on
  any internal failure).
* `steps` — the sequence of callback deliveries and response fragments
  produced by `agent.invoke_stream` before it finishes or raises.
* `excAt` — `some n` when the backend raises out of the `async for` after the
  first `n` steps were processed (`n` past `steps.length` is clamped, meaning
  a raise at the very end of iteration); `none` for a normal finish.
* `excMsg` — `str(e)` of that exception.
* `runUsage` — outcome of the post-stream reconciliation read
  `runs.data[0].usage` (`main.py` lines 391-404): `some u` when the run list
  call succeeds, is non-empty and the latest run has a truthy `usage`
  attribute reading as `u`; `none` when there are no runs, no usage, or the
  read raises (caught by the inner `except`). -/
structure ProcInput where
  threadId : String
  agent_ok : Bool
  steps : List Step
  excAt : Option Nat
  excMsg : String
  runUsage : Option Usage

/-- The steps actually processed before the loop ends or the exception fires. -/
def stepsTaken (inp : ProcInput) : List Step :=
  match inp.excAt with
  | some n => inp.steps.take n
  | none => inp.steps

/-- The initial loop state (`main.py` lines 342-354):
`actual_thread_id = threadId`, `is_new_thread = not bool(threadId)`,
`first_chunk = True`. -/
def initLoopSt (threadId : String) (ledger0 : LedgerState) : LoopSt :=
  ⟨threadId, threadId = "", true, ledger0, [], []⟩

/-- The loop state after the `async for` loop is done (normally or by the
exception cutting it short). -/
def loopState (inp : ProcInput) (ledger0 : LedgerState) : LoopSt :=
  runLoop inp.threadId (initLoopSt inp.threadId ledger0) (stepsTaken inp)

/-- The post-stream reconciliation (`main.py` lines 388-429): when the latest
run reports a strictly positive total, its usage is added to the thread's
ledger entry (creating the entry when absent); otherwise nothing changes.
Exceptions during the read are caught locally (`runUsage = none`). -/
def reconcile_run_usage (st : LedgerState) (thread_id : String)
    (runUsage : Option Usage) : LedgerState :=
  match runUsage with
  | none => st
  | some u =>
    if 0 < u.total_tokens then
      let old := (aget st.thread_token_usage thread_id).getD zeroUsage
      let m2 := aset st.thread_token_usage thread_id (addUsage old u)
      { st with thread_token_usage := m2 }
    else st

/-- Embedding of the whole `stream_processor` coroutine (`main.py` lines
331-452): returns the sequence of event frames placed on `event_queue`
(excluding the final `None` sentinel) and the final shared ledger state. -/
def stream_processor (inp : ProcInput) (ledger0 : LedgerState) :
    List Event × LedgerState :=
  if !inp.agent_ok then
    ([.error "Failed to initialize agent"], ledger0)
  else
    let s := loopState inp ledger0
    match inp.excAt with
    | some _ =>
        -- the exception aborts steps 4-6 and lands in `except` / `finally`
        (s.events ++ [.error inp.excMsg], s.ledger)
    | none =>
        let ledger1 :=
          if s.actual_thread_id ≠ "" then
            reconcile_run_usage s.ledger s.actual_thread_id inp.runUsage
          else s.ledger
        let final_token_usage :=
          (aget ledger1.thread_token_usage s.actual_thread_id).getD zeroUsage
        let usageEvs : List Event :=
          if 0 < final_token_usage.total_tokens then
            [.token_usage s.actual_thread_id final_token_usage]
          else []
        (s.events ++ usageEvs ++ [.stream_complete], ledger1)

/-!  Retrieval boundary (`shadow_insights_plugin.py`, `searchclient.py`). -/

/-- The exception classes the retrieval code discriminates on:
`OpenAIError` (caught inside `get_embedding`), `ValueError` (caught first in
the plugin functions) and everything else. -/
inductive ExcKind : Type where
  | openaiError : ExcKind
  | valueError : ExcKind
  | otherError : ExcKind
deriving DecidableEq, Repr

/-- A raised Python exception: its class and its `str()` form. -/
structure Exc where
  kind : ExcKind
  msg : String
deriving Repr

/-- Embedding of `SearchUser.get_embedding` (`searchclient.py` lines 41-49).
`embedCall` is the outcome of the awaited `embeddings.create` call (a vector,
or a raised exception).  An `OpenAIError` is caught, but the handler itself
evaluates `ai_err.body["message"]`, which raises in turn when the error body
is `None` or lacks the key (`bodyHasMessage = false`); any other exception
propagates. -/
def get_embedding (embedCall : Except Exc (List Nat)) (bodyHasMessage : Bool) :
    Except Exc (Option (List Nat)) :=
  match embedCall with
  | .ok v => .ok (some v)
  | .error e =>
    match e.kind with
    | .openaiError =>
        if bodyHasMessage then .ok none
        else .error ⟨.otherError, "error body has no message"⟩
    | _ => .error e

/-- Evaluation of the result line built for one returned document,
`f"{doc['OriginalFilename']}:  {clean_text(doc['chunk'])}"`
(`searchclient.py` lines 87-90): a missing key or a failure inside
`clean_text` raises. -/
structure DocLine where
  line : Except Exc String

/-- The awaited HTTP search response: its status code, and the outcome of
`await resp.json()` followed by `data.get("value", [])` (parse failures
raise; an absent `value` key yields `[]`). -/
structure HttpResp where
  status : Nat
  jsonDocs : Except Exc (List DocLine)

/-- The body of `SearchUser.search_hybrid` (`searchclient.py` lines 52-91)
without its enclosing `try`: every awaited external call is an oracle
parameter, and raised exceptions propagate via `Except`. -/
def search_hybrid_body (embedCall : Except Exc (List Nat))
    (bodyHasMessage : Bool) (httpCall : Except Exc HttpResp) :
    Except Exc String :=
  match get_embedding embedCall bodyHasMessage with
  | .error e => .error e
  | .ok vector =>
    match vector with
    | none => .ok "No results found."
    | some v =>
      if v = [] then
        -- `if not vector:` is also true for an empty embedding vector
        .ok "No results found."
      else
        match httpCall with
        | .error e => .error e
        | .ok resp =>
          if resp.status ≠ 200 then
            .ok ("Azure Search error: " ++ toString resp.status)
          else
            match resp.jsonDocs with
            | .error e => .error e
            | .ok docs =>
              if docs.isEmpty then
                .ok "No results found."
              else
                match docs.mapM (fun d => d.line) with
                | .error e => .error e
                | .ok results => .ok (String.intercalate "\n" results)

/-- Embedding of `SearchUser.search_hybrid` (`searchclient.py` lines 51-93):
the body wrapped in `try ... except Exception as e: return f"Error performing
hybrid search: {e}"`. -/
def search_hybrid (embedCall : Except Exc (List Nat)) (bodyHasMessage : Bool)
    (httpCall : Except Exc HttpResp) : Except Exc String :=
  match search_hybrid_body embedCall bodyHasMessage httpCall with
  | .ok s => .ok s
  | .error e => .ok ("Error performing hybrid search: " ++ e.msg)

/-- Shared shape of the three plugin kernel functions of
`shadow_insights_plugin.py` (`get_sales_docs` lines 28-44, `get_customer_docs`
lines 50-71, `get_user_docs` lines 77-100): validate the query, await the
search client (`searchCall` is that call's outcome — for `get_sales_docs` the
client class is not part of this repository snapshot, so its behavior is left
arbitrary), replace a falsy result by the index's "no documents" sentinel,
and catch `ValueError` and then any exception.  `query` is a `str` by typing,
so the `isinstance` half of the check is always true. -/
def plugin_get_docs (query : String) (searchCall : Except Exc String)
    (emptySentinel errPrefix : String) : Except Exc String :=
  let body : Except Exc String :=
    if query.trim = "" then
      .error ⟨.valueError, "The query must be a non-empty string."⟩
    else
      match searchCall with
      | .error e => .error e
      | .ok docs =>
        if docs = "" then .ok emptySentinel
        else .ok docs
  match body with
  | .ok s => .ok s
  | .error e =>
    match e.kind with
    | .valueError => .ok ("Input error: " ++ e.msg)
    | _ => .ok (errPrefix ++ e.msg)

/-- `ShadowInsightsPlugin.get_sales_docs` (`shadow_insights_plugin.py`
lines 28-44). -/
def get_sales_docs (query : String) (searchCall : Except Exc String) :
    Except Exc String :=
  plugin_get_docs query searchCall
    "No relevant documents found in the sales index."
    "An error occurred while retrieving documents from the sales index: "

/-- `ShadowInsightsPlugin.get_customer_docs` (`shadow_insights_plugin.py`
lines 50-71). -/
def get_customer_docs (query : String) (searchCall : Except Exc String) :
    Except Exc String :=
  plugin_get_docs query searchCall
    "No relevant documents found in the customer index."
    "An error occurred while retrieving documents from the customer index: "

/-- `ShadowInsightsPlugin.get_user_docs` (`shadow_insights_plugin.py`
lines 77-100). -/
def get_user_docs (query : String) (searchCall : Except Exc String) :
    Except Exc String :=
  plugin_get_docs query searchCall
    "No relevant documents found in the user index."
    "An error occurred while retrieving documents from the user index: "

/-!  Association-list lemmas. -/

/-- `find?` commutes with a `filter` that keeps every possible match. -/
lemma find?_filter_of_imp {α : Type} (l : List α) (p q : α → Bool)
    (h : ∀ x, q x = true → p x = true) :
    (l.filter p).find? q = l.find? q := by
  induction l with
  | nil => rfl
  | cons a t ih =>
    by_cases hq : q a = true
    · have hp := h a hq
      simp [List.filter_cons, hp, List.find?_cons, hq, ih]
    · by_cases hp : p a = true
      · simp [List.filter_cons, hp, List.find?_cons, hq, ih]
      · simp only [Bool.not_eq_true] at hp
        simp [List.filter_cons, hp, List.find?_cons, hq, ih]

/-- `find?` after a `filter` that rejects every possible match finds nothing. -/
lemma find?_filter_of_excl {α : Type} (l : List α) (p q : α → Bool)
    (h : ∀ x, q x = true → p x = false) :
    (l.filter p).find? q = none := by
  induction l with
  | nil => rfl
  | cons a t ih =>
    by_cases hq : q a = true
    · have hp := h a hq
      simp [List.filter_cons, hp, ih]
    · by_cases hp : p a = true
      · simp [List.filter_cons, hp, List.find?_cons, hq, ih]
      · simp only [Bool.not_eq_true] at hp
        simp [List.filter_cons, hp, ih]

lemma aget_aset_self {α : Type} (m : List (String × α)) (k : String) (v : α) :
    aget (aset m k v) k = some v := by
  simp [aget, aset, List.find?_cons]

lemma aget_aset_ne {α : Type} (m : List (String × α)) (k k' : String) (v : α)
    (h : k' ≠ k) : aget (aset m k v) k' = aget m k' := by
  have hk : ((k, v).1 == k') = false := by
    simp [Ne.symm h]
  simp only [aget, aset, List.find?_cons, hk]
  rw [find?_filter_of_imp]
  intro x hx
  simp only [beq_iff_eq] at hx
  simp [bne_iff_ne, hx, h]

lemma aget_adel_self {α : Type} (m : List (String × α)) (k : String) :
    aget (adel m k) k = none := by
  simp only [aget, adel, Option.map_eq_none']
  apply find?_filter_of_excl
  intro x hx
  simp only [beq_iff_eq] at hx
  simp [bne_iff_ne, hx]

lemma aget_adel_ne {α : Type} (m : List (String × α)) (k k' : String)
    (h : k' ≠ k) : aget (adel m k) k' = aget m k' := by
  simp only [aget, adel]
  rw [find?_filter_of_imp]
  intro x hx
  simp only [beq_iff_eq] at hx
  simp [bne_iff_ne, hx, h]

/-- `aget m k = none` exactly when no binding of `m` has key `k`. -/
lemma aget_eq_none_iff {α : Type} (m : List (String × α)) (k : String) :
    aget m k = none ↔ ∀ x ∈ m, x.1 ≠ k := by
  simp [aget, List.find?_eq_none]

/-!  Behavior of one `extract_and_accumulate_tokens` call. -/

/-- After a record call on a non-empty id, the thread's ledger entry holds the
old value (zero when absent) plus the extracted usage when its total is
positive, and the old value (materialized as an entry) otherwise. -/
lemma aget_extract_and_accumulate (st : LedgerState) (r : Response)
    (tid : String) (h : tid ≠ "") :
    aget (extract_and_accumulate_tokens st r tid).2.thread_token_usage tid =
      some (if 0 < (extract_current_usage r).total_tokens
            then addUsage ((aget st.thread_token_usage tid).getD zeroUsage)
                   (extract_current_usage r)
            else (aget st.thread_token_usage tid).getD zeroUsage) := by
  cases hv : aget st.thread_token_usage tid with
  | none =>
    by_cases hp : 0 < (extract_current_usage r).total_tokens
    · simp [extract_and_accumulate_tokens, h, hv, hp, aget_aset_self]
    · simp [extract_and_accumulate_tokens, h, hv, hp, aget_aset_self]
  | some v =>
    by_cases hp : 0 < (extract_current_usage r).total_tokens
    · simp [extract_and_accumulate_tokens, h, hv, hp, aget_aset_self]
    · simp [extract_and_accumulate_tokens, h, hv, hp]

/-- `extract_and_accumulate_tokens` never touches `thread_last_access`. -/
lemma extract_preserves_last_access (st : LedgerState) (r : Response)
    (tid : String) :
    (extract_and_accumulate_tokens st r tid).2.thread_last_access =
      st.thread_last_access := by
  by_cases h : tid = ""
  · simp [extract_and_accumulate_tokens, h]
  · cases hv : aget st.thread_token_usage tid with
    | none =>
      by_cases hp : 0 < (extract_current_usage r).total_tokens <;>
        simp [extract_and_accumulate_tokens, h, hv, hp]
    | some v =>
      by_cases hp : 0 < (extract_current_usage r).total_tokens <;>
        simp [extract_and_accumulate_tokens, h, hv, hp]

/-- C2: for every non-empty conversation id with no existing ledger entry,
recording the usage observations `(100,50,150)`, `(75,125,200)`, `(90,80,170)`
through `extract_and_accumulate_tokens` leaves the entry at
`{input_tokens := 265, output_tokens := 255, total_tokens := 520}`. -/
theorem claim_C2_usage_accumulation (tid : String) (st0 : LedgerState)
    (r1 r2 r3 : Response)
    (htid : tid ≠ "")
    (h0 : aget st0.thread_token_usage tid = none)
    (h1 : extract_current_usage r1 = ⟨100, 50, 150⟩)
    (h2 : extract_current_usage r2 = ⟨75, 125, 200⟩)
    (h3 : extract_current_usage r3 = ⟨90, 80, 170⟩) :
    aget (extract_and_accumulate_tokens
            (extract_and_accumulate_tokens
              (extract_and_accumulate_tokens st0 r1 tid).2
              r2 tid).2
            r3 tid).2.thread_token_usage tid =
      some ⟨265, 255, 520⟩ := by
  have e1 := aget_extract_and_accumulate st0 r1 tid htid
  rw [h0, h1] at e1
  simp only [show (0:Nat) < 150 by decide, if_pos] at e1
  have e2 := aget_extract_and_accumulate
    (extract_and_accumulate_tokens st0 r1 tid).2 r2 tid htid
  rw [e1, h2] at e2
  simp only [show (0:Nat) < 200 by decide, if_pos] at e2
  have e3 := aget_extract_and_accumulate
    (extract_and_accumulate_tokens (extract_and_accumulate_tokens st0 r1 tid).2
      r2 tid).2 r3 tid htid
  rw [e2, h3] at e3
  simp only [show (0:Nat) < 170 by decide, if_pos] at e3
  rw [e3]
  rfl

/-- Witness for C2 at a concrete input: id `"thread_test_12345"`, empty
ledger, three fragments whose `usage` attribute carries the three
observations. -/
theorem claim_C2_usage_accumulation_witness :
    aget (extract_and_accumulate_tokens
            (extract_and_accumulate_tokens
              (extract_and_accumulate_tokens emptyLedger
                ⟨none, some ⟨100, 50, 150⟩, none, none, none, none⟩
                "thread_test_12345").2
              ⟨none, some ⟨75, 125, 200⟩, none, none, none, none⟩
              "thread_test_12345").2
            ⟨none, some ⟨90, 80, 170⟩, none, none, none, none⟩
            "thread_test_12345").2.thread_token_usage "thread_test_12345" =
      some ⟨265, 255, 520⟩ :=
  claim_C2_usage_accumulation "thread_test_12345" emptyLedger _ _ _
    (by decide) rfl rfl rfl rfl

/-!  C5: the per-fragment source-selection policy. -/

/-- C5 counterexample: "the first positive match wins" fails.  For a fragment
whose serialized dump has no usage, whose `usage` attribute is present but
reports total 0, and whose metadata reports the strictly positive usage
`(10,5,15)`, the first (and only) source with positive total is the metadata
field, yet the `elif` chain never consults it: the extraction yields total 0
and a record call accumulates nothing (the entry stays at zero). -/
theorem claim_C5_counterexample :
    extract_current_usage ⟨none, some ⟨0, 0, 0⟩, some ⟨10, 5, 15⟩, none, none, none⟩
        = zeroUsage ∧
    (⟨none, some ⟨0, 0, 0⟩, some ⟨10, 5, 15⟩, none, none, none⟩ : Response).metaUsage
        = some ⟨10, 5, 15⟩ ∧
    0 < (15 : Nat) ∧
    aget (extract_and_accumulate_tokens emptyLedger
            ⟨none, some ⟨0, 0, 0⟩, some ⟨10, 5, 15⟩, none, none, none⟩
            "t").2.thread_token_usage "t" = some zeroUsage :=
  ⟨rfl, rfl, by decide, rfl⟩

/-- The selection policy of `extract_current_usage` in closed form: the dump
value (defaulting to zero) wins unless its total is 0, in which case the
`usage` attribute is consulted when present, and only in its absence the
metadata source. -/
lemma extract_current_usage_eq (r : Response) :
    extract_current_usage r =
      if (r.dumpUsage.getD zeroUsage).total_tokens = 0 then
        match r.usageAttr with
        | some a => a
        | none =>
          match r.metaUsage with
          | some u => u
          | none => r.dumpUsage.getD zeroUsage
      else r.dumpUsage.getD zeroUsage := by
  unfold extract_current_usage
  cases r.dumpUsage <;> cases r.usageAttr <;> cases r.metaUsage <;> rfl

/-- C5 (amended): per fragment, at most one source is accepted and only with a
strictly positive total; the accepted value is exactly one source's reading,
never a sum; the serialized dump has first priority; a zero-total fragment
leaves the recorded totals unchanged.  However the metadata source is
consulted only when the `usage` attribute is absent or falsy, so a present
zero-total `usage` attribute masks positive metadata (first positive match
does not always win). -/
theorem claim_C5_single_source_policy (st : LedgerState) (r : Response)
    (tid : String) (htid : tid ≠ "") :
    (aget (extract_and_accumulate_tokens st r tid).2.thread_token_usage tid =
      some (if 0 < (extract_current_usage r).total_tokens
            then addUsage ((aget st.thread_token_usage tid).getD zeroUsage)
                   (extract_current_usage r)
            else (aget st.thread_token_usage tid).getD zeroUsage)) ∧
    (0 < (extract_current_usage r).total_tokens →
      r.dumpUsage = some (extract_current_usage r) ∨
      r.usageAttr = some (extract_current_usage r) ∨
      r.metaUsage = some (extract_current_usage r)) ∧
    (∀ d, r.dumpUsage = some d → 0 < d.total_tokens →
      extract_current_usage r = d) ∧
    (∀ a, r.usageAttr = some a → a.total_tokens = 0 →
      (∀ d, r.dumpUsage = some d → d.total_tokens = 0) →
      extract_current_usage r = a) := by
  refine ⟨aget_extract_and_accumulate st r tid htid, ?_, ?_, ?_⟩
  · intro hpos
    rw [extract_current_usage_eq] at hpos ⊢
    by_cases hdz : (r.dumpUsage.getD zeroUsage).total_tokens = 0
    · rw [if_pos hdz] at hpos ⊢
      cases ha : r.usageAttr with
      | some a => exact Or.inr (Or.inl rfl)
      | none =>
        cases hm : r.metaUsage with
        | some u => exact Or.inr (Or.inr rfl)
        | none =>
          rw [ha, hm] at hpos
          have hp2 : 0 < (r.dumpUsage.getD zeroUsage).total_tokens := hpos
          omega
    · rw [if_neg hdz] at hpos ⊢
      cases hd : r.dumpUsage with
      | some d => exact Or.inl rfl
      | none =>
        rw [hd] at hpos
        have hp2 : 0 < zeroUsage.total_tokens := hpos
        exact absurd hp2 (by decide)
  · intro d hd hdpos
    rw [extract_current_usage_eq, hd]
    exact if_neg (by simp; omega)
  · intro a ha haz hdz
    have hdz2 : (r.dumpUsage.getD zeroUsage).total_tokens = 0 := by
      cases hd : r.dumpUsage with
      | some d => simpa [hd] using hdz d hd
      | none => simp [hd, zeroUsage]
    rw [extract_current_usage_eq, ha, if_pos hdz2]

/-- C5 witness: concrete instantiation of the amended policy theorem, with a
dump-provided positive usage masking the attribute source. -/
theorem claim_C5_single_source_policy_witness :
    aget (extract_and_accumulate_tokens emptyLedger
            ⟨some ⟨7, 3, 10⟩, some ⟨1, 1, 2⟩, none, none, none, none⟩
            "t").2.thread_token_usage "t" =
      some (if 0 < (extract_current_usage
              ⟨some ⟨7, 3, 10⟩, some ⟨1, 1, 2⟩, none, none, none, none⟩).total_tokens
            then addUsage ((aget emptyLedger.thread_token_usage "t").getD zeroUsage)
                   (extract_current_usage
                     ⟨some ⟨7, 3, 10⟩, some ⟨1, 1, 2⟩, none, none, none, none⟩)
            else (aget emptyLedger.thread_token_usage "t").getD zeroUsage) :=
  (claim_C5_single_source_policy emptyLedger
    ⟨some ⟨7, 3, 10⟩, some ⟨1, 1, 2⟩, none, none, none, none⟩ "t" (by decide)).1

/-!  C6: which ledger operations refresh `thread_last_access`. -/

/-- C6 counterexample: a record call does not refresh the last-access
timestamp.  Starting from the empty ledger, recording positive usage
`(100,50,150)` for thread `"t"` accumulates into `thread_token_usage` but
leaves `thread_last_access` without any entry for `"t"`. -/
theorem claim_C6_counterexample :
    aget (extract_and_accumulate_tokens emptyLedger
            ⟨none, some ⟨100, 50, 150⟩, none, none, none, none⟩
            "t").2.thread_token_usage "t" = some ⟨100, 50, 150⟩ ∧
    aget (extract_and_accumulate_tokens emptyLedger
            ⟨none, some ⟨100, 50, 150⟩, none, none, none, none⟩
            "t").2.thread_last_access "t" = none :=
  ⟨rfl, rfl⟩

/-- C6 (amended): only the read path refreshes the last-access timestamp.
`get_thread_token_usage` on a non-empty id stamps `thread_last_access` with
the current time, while `extract_and_accumulate_tokens` always leaves
`thread_last_access` exactly as it was. -/
theorem claim_C6_access_refresh (st st' : LedgerState) (r : Response)
    (tid tid' : String) (now : Int) (htid : tid ≠ "") :
    aget (get_thread_token_usage st tid now).2.thread_last_access tid =
        some now ∧
    (extract_and_accumulate_tokens st' r tid').2.thread_last_access =
        st'.thread_last_access := by
  constructor
  · simp [get_thread_token_usage, htid, aget_aset_self]
  · exact extract_preserves_last_access st' r tid'

/-- C6 witness: the amended theorem at a concrete read and a concrete record. -/
theorem claim_C6_access_refresh_witness :
    aget (get_thread_token_usage emptyLedger "t" 1000).2.thread_last_access "t" =
        some 1000 ∧
    (extract_and_accumulate_tokens emptyLedger
        ⟨none, some ⟨100, 50, 150⟩, none, none, none, none⟩
        "u").2.thread_last_access = emptyLedger.thread_last_access :=
  claim_C6_access_refresh emptyLedger emptyLedger
    ⟨none, some ⟨100, 50, 150⟩, none, none, none, none⟩ "t" "u" 1000 (by decide)

/-!  C7: when a ledger entry is created. -/

/-- C7 counterexample: a record call on a previously-absent non-empty id with
extracted total 0 does create an entry — an all-zero one — rather than
leaving the ledger without an entry for that id. -/
theorem claim_C7_counterexample :
    extract_current_usage ⟨none, none, none, none, none, none⟩ = zeroUsage ∧
    aget (extract_and_accumulate_tokens emptyLedger
            ⟨none, none, none, none, none, none⟩
            "t").2.thread_token_usage "t" = some zeroUsage :=
  ⟨rfl, rfl⟩

/-- C7 (amended): an entry is created on the very first record call for a
non-empty id regardless of the observation's total: when the entry is absent
and the extracted total is 0, the call leaves an all-zero entry (not an
absent one); accumulation beyond zero happens only for positive totals. -/
theorem claim_C7_entry_creation (st : LedgerState) (r : Response)
    (tid : String) (htid : tid ≠ "")
    (habs : aget st.thread_token_usage tid = none)
    (hz : (extract_current_usage r).total_tokens = 0) :
    aget (extract_and_accumulate_tokens st r tid).2.thread_token_usage tid =
      some zeroUsage := by
  rw [aget_extract_and_accumulate st r tid htid, habs]
  rw [if_neg (by omega)]
  rfl

/-- C7 witness: the amended entry-creation theorem at a concrete input. -/
theorem claim_C7_entry_creation_witness :
    aget (extract_and_accumulate_tokens emptyLedger
            ⟨none, none, none, none, none, none⟩
            "t").2.thread_token_usage "t" = some zeroUsage :=
  claim_C7_entry_creation emptyLedger ⟨none, none, none, none, none, none⟩ "t"
    (by decide) rfl rfl

/-!  C9: JSON safety of tool-result frames. -/

/-- C9 counterexample: `json.dumps` of the `function_result` event data does
not succeed for every possible tool-result value.  A list containing a
non-primitive object passes the `isinstance` check of `safe_serialize`
unchanged, and the resulting frame data is not JSON-serializable. -/
theorem claim_C9_counterexample :
    safe_serialize (.pylist [.pyobj "<SearchResult object>"]) =
        .pylist [.pyobj "<SearchResult object>"] ∧
    jsonSafe (functionResultData "get_sales_docs"
        (.pylist [.pyobj "<SearchResult object>"])) = false :=
  ⟨rfl, rfl⟩

/-- C9 (amended): a tool-result value that is not a `str`/`int`/`float`/
`bool`/`list`/`dict`/`None` is rendered as its string form, and the frame
serializes whenever the coerced result does: `json.dumps` of the
`function_result` event data succeeds exactly when `safe_serialize` of the
result is recursively JSON-safe — always true for any non-container value,
but not for containers holding non-primitive elements. -/
theorem claim_C9_json_safety (function_name : String) (v : PyVal) (s : String) :
    safe_serialize (.pyobj s) = .pystr s ∧
    jsonSafe (functionResultData function_name v) = jsonSafe (safe_serialize v) ∧
    jsonSafe (safe_serialize (.pyobj s)) = true := by
  refine ⟨rfl, ?_, rfl⟩
  simp [functionResultData, jsonSafe, jsonSafeKVs]

/-!  C8: the retrieval boundary never raises. -/

/-- Any outcome of the wrapped search call and any query give an `ok` result. -/
lemma plugin_get_docs_ok (q : String) (sc : Except Exc String)
    (se pre : String) : ∃ s, plugin_get_docs q sc se pre = .ok s := by
  unfold plugin_get_docs
  by_cases hq : q.trim = ""
  · rw [if_pos hq]
    exact ⟨"Input error: The query must be a non-empty string.", rfl⟩
  · rw [if_neg hq]
    cases sc with
    | error e =>
      obtain ⟨k, msg⟩ := e
      cases k
      · exact ⟨pre ++ msg, rfl⟩
      · exact ⟨"Input error: " ++ msg, rfl⟩
      · exact ⟨pre ++ msg, rfl⟩
    | ok docs =>
      by_cases hd : docs = ""
      · subst hd
        exact ⟨se, rfl⟩
      · exact ⟨docs, by simp [hd]⟩

/-- C8: for every input — empty or whitespace-only queries included — and for
every behavior of the external collaborators (embedding call, HTTP search
call, JSON decoding, per-document rendering, wrapped search client),
`get_sales_docs`, `get_customer_docs`, `get_user_docs` and
`SearchUser.search_hybrid` all return a string outcome (`ok`): no exception
escapes their boundary. -/
theorem claim_C8_retrieval_never_raises (query : String)
    (searchCall : Except Exc String) (embedCall : Except Exc (List Nat))
    (bodyHasMessage : Bool) (httpCall : Except Exc HttpResp) :
    (∃ s, get_sales_docs query searchCall = .ok s) ∧
    (∃ s, get_customer_docs query searchCall = .ok s) ∧
    (∃ s, get_user_docs query searchCall = .ok s) ∧
    (∃ s, search_hybrid embedCall bodyHasMessage httpCall = .ok s) := by
  refine ⟨plugin_get_docs_ok _ _ _ _, plugin_get_docs_ok _ _ _ _,
          plugin_get_docs_ok _ _ _ _, ?_⟩
  unfold search_hybrid
  cases search_hybrid_body embedCall bodyHasMessage httpCall with
  | ok s => exact ⟨s, rfl⟩
  | error e => exact ⟨_, rfl⟩

/-!  C10: write-only threads are invisible to eviction. -/

/-- A lookup that finds nothing still finds nothing after any `filter`. -/
lemma aget_filter_none {α : Type} (m : List (String × α)) (p : String × α → Bool)
    (k : String) (h : aget m k = none) : aget (m.filter p) k = none := by
  rw [aget_eq_none_iff] at h ⊢
  intro x hx
  exact h x (List.mem_filter.mp hx).1

/-- `cleanup_old_threads` leaves the usage entry of a thread untouched unless
`thread_last_access` holds a timestamp for it older than the cutoff. -/
lemma cleanup_preserves_usage_of_no_old_stamp (st : LedgerState) (now : Int)
    (tid : String)
    (h : ∀ t : Int, (tid, t) ∈ st.thread_last_access →
          ¬ t < now - MAX_THREAD_AGE_HOURS * 3600) :
    aget (cleanup_old_threads st now).thread_token_usage tid =
      aget st.thread_token_usage tid := by
  have hmem : tid ∉ ((st.thread_last_access.filter
      (fun p => decide (p.2 < now - MAX_THREAD_AGE_HOURS * 3600))).map
        (fun p => p.1)) := by
    intro hm
    obtain ⟨p, hp, hp1⟩ := List.mem_map.mp hm
    obtain ⟨hpmem, hplt⟩ := List.mem_filter.mp hp
    have hpair : (tid, p.2) ∈ st.thread_last_access := by
      have : p = (tid, p.2) := by
        cases p
        simp only [Prod.mk.injEq, and_true]
        simpa using hp1
      rw [← this]
      exact hpmem
    exact h p.2 hpair (by simpa using hplt)
  unfold cleanup_old_threads
  simp only [aget]
  rw [find?_filter_of_imp]
  intro x hx
  simp only [beq_iff_eq] at hx
  rw [hx]
  simp [hmem]

/-- `cleanup_old_threads` changes a thread's usage entry only when
`thread_last_access` holds an old-enough timestamp for that thread. -/
lemma cleanup_changes_only_stamped (st : LedgerState) (now : Int) (tid : String)
    (hne : aget (cleanup_old_threads st now).thread_token_usage tid ≠
            aget st.thread_token_usage tid) :
    ∃ t, (tid, t) ∈ st.thread_last_access ∧
          t < now - MAX_THREAD_AGE_HOURS * 3600 := by
  by_contra hno
  push_neg at hno
  exact hne (cleanup_preserves_usage_of_no_old_stamp st now tid
    (fun t hm => not_lt.mpr (hno t hm)))

/-- The four operations of the usage-ledger API of `main.py`, as invoked by
the request handlers: a record (`extract_and_accumulate_tokens`), a read
(`get_thread_token_usage`), an eviction pass (`cleanup_old_threads`) and a
reset (`reset_thread_tokens`). -/
inductive LedgerOp : Type where
  | record (r : Response) (tid : String) : LedgerOp
  | readUsage (tid : String) (now : Int) : LedgerOp
  | cleanup (now : Int) : LedgerOp
  | reset (tid : String) : LedgerOp

/-- State transition of one ledger operation. -/
def applyOp (st : LedgerState) : LedgerOp → LedgerState
  | .record r tid => (extract_and_accumulate_tokens st r tid).2
  | .readUsage tid now => (get_thread_token_usage st tid now).2
  | .cleanup now => cleanup_old_threads st now
  | .reset tid => reset_thread_tokens st tid

/-- State after a sequence of ledger operations. -/
def applyOps (st : LedgerState) (ops : List LedgerOp) : LedgerState :=
  ops.foldl applyOp st

/-- Whether an operation is a `get_thread_token_usage` read of the given
thread — the only operation that writes `thread_last_access` for it. -/
def readsThread (tid : String) : LedgerOp → Bool
  | .readUsage tid' _ => tid' == tid
  | _ => false

/-- No single operation other than a read of `tid` makes `tid` appear in
`thread_last_access`. -/
lemma applyOp_preserves_no_access (st : LedgerState) (op : LedgerOp)
    (tid : String) (hop : readsThread tid op = false)
    (h : aget st.thread_last_access tid = none) :
    aget (applyOp st op).thread_last_access tid = none := by
  cases op with
  | record r tid' =>
    show aget (extract_and_accumulate_tokens st r tid').2.thread_last_access tid = none
    rw [extract_preserves_last_access]
    exact h
  | readUsage tid' now =>
    have hne : tid ≠ tid' := by
      simp only [readsThread, beq_eq_false_iff_ne, ne_eq] at hop
      exact fun he => hop he.symm
    show aget (get_thread_token_usage st tid' now).2.thread_last_access tid = none
    unfold get_thread_token_usage
    by_cases ht : tid' = ""
    · simp only [ht, ne_eq, not_true_eq_false, if_false]
      exact h
    · simp only [ne_eq, ht, not_false_eq_true, if_true]
      rw [aget_aset_ne _ _ _ _ hne]
      exact h
  | cleanup now =>
    exact aget_filter_none _ _ _ h
  | reset tid' =>
    exact h

/-- Over any operation sequence containing no read of `tid`, the thread never
acquires a `thread_last_access` entry. -/
lemma applyOps_preserves_no_access (tid : String) :
    ∀ (ops : List LedgerOp) (st : LedgerState),
      (∀ op ∈ ops, readsThread tid op = false) →
      aget st.thread_last_access tid = none →
      aget (applyOps st ops).thread_last_access tid = none := by
  intro ops
  induction ops with
  | nil => intro st _ h; exact h
  | cons op rest ih =>
    intro st hops h
    exact ih (applyOp st op)
      (fun o ho => hops o (List.mem_cons_of_mem op ho))
      (applyOp_preserves_no_access st op tid (hops op (List.mem_cons_self op rest)) h)

/-- C10: `cleanup_old_threads` deletes a usage entry only for ids carrying an
old-enough `thread_last_access` stamp; `extract_and_accumulate_tokens` never
writes `thread_last_access`; consequently a conversation id that starts
without a stamp and is never read via `get_thread_token_usage` — records,
resets and cleanup passes on anything, and reads of other ids, are all
allowed — still has no stamp at the end, and a cleanup pass at any time
leaves its usage entry exactly as it is. -/
theorem claim_C10_write_only_never_evicted (tid : String)
    (ops : List LedgerOp) (st0 : LedgerState)
    (h0 : aget st0.thread_last_access tid = none)
    (hops : ∀ op ∈ ops, readsThread tid op = false) :
    aget (applyOps st0 ops).thread_last_access tid = none ∧
    (∀ now, aget (cleanup_old_threads (applyOps st0 ops) now).thread_token_usage
              tid = aget (applyOps st0 ops).thread_token_usage tid) ∧
    (∀ (st : LedgerState) (r : Response) (tid' : String),
      (extract_and_accumulate_tokens st r tid').2.thread_last_access =
        st.thread_last_access) ∧
    (∀ (st : LedgerState) (now : Int) (tid' : String),
      aget (cleanup_old_threads st now).thread_token_usage tid' ≠
        aget st.thread_token_usage tid' →
      ∃ t, (tid', t) ∈ st.thread_last_access ∧
            t < now - MAX_THREAD_AGE_HOURS * 3600) := by
  have hfin := applyOps_preserves_no_access tid ops st0 hops h0
  refine ⟨hfin, ?_, extract_preserves_last_access, cleanup_changes_only_stamped⟩
  intro now
  apply cleanup_preserves_usage_of_no_old_stamp
  intro t hmem _
  rw [aget_eq_none_iff] at hfin
  exact hfin (tid, t) hmem rfl

/-- C10 witness: thread `"t"` is recorded with positive usage, other threads
are read and a cleanup pass runs far in the future; `"t"` keeps no
last-access stamp and survives a much later eviction pass unchanged. -/
theorem claim_C10_write_only_never_evicted_witness :
    aget (applyOps emptyLedger
        [LedgerOp.record ⟨none, some ⟨100, 50, 150⟩, none, none, none, none⟩ "t",
         LedgerOp.readUsage "other" 5,
         LedgerOp.cleanup 1000000]).thread_last_access "t" = none ∧
    aget (cleanup_old_threads (applyOps emptyLedger
        [LedgerOp.record ⟨none, some ⟨100, 50, 150⟩, none, none, none, none⟩ "t",
         LedgerOp.readUsage "other" 5,
         LedgerOp.cleanup 1000000]) 123456789).thread_token_usage "t" =
      aget (applyOps emptyLedger
        [LedgerOp.record ⟨none, some ⟨100, 50, 150⟩, none, none, none, none⟩ "t",
         LedgerOp.readUsage "other" 5,
         LedgerOp.cleanup 1000000]).thread_token_usage "t" :=
  ⟨(claim_C10_write_only_never_evicted "t" _ emptyLedger rfl (by decide)).1,
   (claim_C10_write_only_never_evicted "t" _ emptyLedger rfl (by decide)).2.1
     123456789⟩

/-!  C1: the event protocol of the emitted trace. -/

/-- Terminal markers: `stream_complete` and `error`. -/
def isTerminal : Event → Bool
  | .stream_complete => true
  | .error _ => true
  | _ => false

/-- `thread_info` frames. -/
def isThreadInfo : Event → Bool
  | .thread_info _ _ => true
  | _ => false

/-- `token_usage` frames. -/
def isTokenUsage : Event → Bool
  | .token_usage _ _ => true
  | _ => false

/-- `seenBefore p q es` holds when some event satisfying `p` occurs strictly
before some event satisfying `q`.  `seenBefore isTerminal (fun _ => true)` is
"an event follows a terminal marker"; `seenBefore isThreadInfo isThreadInfo`
is "`thread_info` appears twice"; `seenBefore isTokenUsage isThreadInfo` is
"some `thread_info` does not precede some `token_usage`". -/
def seenBefore (p q : Event → Bool) : List Event → Bool
  | [] => false
  | e :: rest => (p e && rest.any q) || seenBefore p q rest

lemma seenBefore_append (p q : Event → Bool) (xs ys : List Event) :
    seenBefore p q (xs ++ ys) =
      (seenBefore p q xs || (xs.any p && ys.any q) || seenBefore p q ys) := by
  induction xs with
  | nil => simp [seenBefore]
  | cons e xs ih =>
    simp only [List.cons_append, seenBefore, List.any_append, List.any_cons,
      List.append_eq]
    rw [ih]
    cases p e <;> cases xs.any q <;> cases ys.any q <;> cases xs.any p <;>
      cases seenBefore p q xs <;> cases seenBefore p q ys <;> rfl

lemma seenBefore_of_any_eq_false (p q : Event → Bool) (l : List Event)
    (h : l.any p = false) : seenBefore p q l = false := by
  induction l with
  | nil => rfl
  | cons e rest ih =>
    simp only [List.any_cons, Bool.or_eq_false_iff] at h
    simp [seenBefore, h.1, ih h.2]

lemma any_eq_false_of_countP_eq_zero (p : Event → Bool) (l : List Event)
    (h : l.countP p = 0) : l.any p = false := by
  rw [List.countP_eq_zero] at h
  simp only [List.any_eq_false]
  intro x hx
  simp [h x hx]

lemma seenBefore_self_of_countP_le_one (p : Event → Bool) (l : List Event)
    (h : l.countP p ≤ 1) : seenBefore p p l = false := by
  induction l with
  | nil => rfl
  | cons e rest ih =>
    rw [List.countP_cons] at h
    by_cases hp : p e = true
    · simp only [hp, eq_self_iff_true, if_true] at h
      have hz : rest.countP p = 0 := by omega
      simp [seenBefore, hp, any_eq_false_of_countP_eq_zero p rest hz,
        ih (by omega)]
    · simp only [Bool.not_eq_true] at hp
      simp only [hp, Bool.false_eq_true, if_false, add_zero] at h
      simp [seenBefore, hp, ih h]

/-- The events accumulated inside the `async for` loop contain no terminal
marker, no `token_usage`, and at most one `thread_info` (none while
`first_chunk` is still true). -/
def bodyOk (s : LoopSt) : Prop :=
  s.events.any isTerminal = false ∧
  s.events.any isTokenUsage = false ∧
  s.events.countP isThreadInfo ≤ (if s.first_chunk = true then 0 else 1)

lemma procStep_bodyOk (tid : String) (s : LoopSt) (step : Step)
    (h : bodyOk s) : bodyOk (procStep tid s step) := by
  obtain ⟨h1, h2, h3⟩ := h
  cases step with
  | interCall n a =>
    refine ⟨?_, ?_, ?_⟩ <;>
      simp [procStep, List.any_append, List.countP_append, h1, h2,
            isTerminal, isTokenUsage, isThreadInfo] <;> exact h3
  | interResult n r =>
    refine ⟨?_, ?_, ?_⟩ <;>
      simp [procStep, List.any_append, List.countP_append, h1, h2,
            isTerminal, isTokenUsage, isThreadInfo] <;> exact h3
  | interOther t =>
    refine ⟨?_, ?_, ?_⟩ <;>
      simp [procStep, List.any_append, List.countP_append, h1, h2,
            isTerminal, isTokenUsage, isThreadInfo] <;> exact h3
  | frag r =>
    by_cases hf : s.first_chunk = true
    · have h3z : s.events.countP isThreadInfo = 0 := by
        rw [if_pos hf] at h3; omega
      by_cases hct : (r.content.getD "").trim ≠ "" <;>
        refine ⟨?_, ?_, ?_⟩ <;>
          simp [procStep, hf, hct, List.any_append, List.countP_append, h1,
                h2, h3z, isTerminal, isTokenUsage, isThreadInfo]
    · simp only [Bool.not_eq_true] at hf
      have h3o : s.events.countP isThreadInfo ≤ 1 := by
        simp only [hf, Bool.false_eq_true, if_false] at h3; exact h3
      by_cases hct : (r.content.getD "").trim ≠ "" <;>
        refine ⟨?_, ?_, ?_⟩ <;>
          simp [procStep, hf, hct, List.any_append, List.countP_append, h1,
                h2, isTerminal, isTokenUsage, isThreadInfo] <;> omega

lemma runLoop_bodyOk (tid : String) :
    ∀ (steps : List Step) (s : LoopSt), bodyOk s → bodyOk (runLoop tid s steps) := by
  intro steps
  induction steps with
  | nil => intro s h; exact h
  | cons step rest ih =>
    intro s h
    exact ih (procStep tid s step) (procStep_bodyOk tid s step h)

lemma countP_eq_zero_of_any_eq_false (p : Event → Bool) (l : List Event)
    (h : l.any p = false) : l.countP p = 0 := by
  rw [List.countP_eq_zero]
  rw [List.any_eq_false] at h
  exact h

/-- A trace made of a well-formed loop body followed by a well-formed closing
tail satisfies the full event protocol. -/
lemma trace_good (body tail : List Event)
    (hb1 : body.any isTerminal = false)
    (hb2 : body.any isTokenUsage = false)
    (hb3 : body.countP isThreadInfo ≤ 1)
    (ht1 : tail.countP isTerminal = 1)
    (ht2 : seenBefore isTerminal (fun _ => true) tail = false)
    (ht3 : tail.any isThreadInfo = false)
    (ht4 : seenBefore isTokenUsage isThreadInfo tail = false) :
    (body ++ tail).countP isTerminal = 1 ∧
    seenBefore isTerminal (fun _ => true) (body ++ tail) = false ∧
    seenBefore isThreadInfo isThreadInfo (body ++ tail) = false ∧
    seenBefore isTokenUsage isThreadInfo (body ++ tail) = false := by
  refine ⟨?_, ?_, ?_, ?_⟩
  · rw [List.countP_append, countP_eq_zero_of_any_eq_false _ _ hb1, ht1]
  · rw [seenBefore_append, seenBefore_of_any_eq_false _ _ _ hb1, hb1, ht2]
    rfl
  · rw [seenBefore_append, seenBefore_self_of_countP_le_one _ _ hb3, ht3]
    simp [seenBefore_of_any_eq_false _ _ _ ht3]
  · rw [seenBefore_append, seenBefore_of_any_eq_false _ _ _ hb2, hb2, ht4]
    rfl

/-- The normal-completion tail (`token_usage` if positive, then
`stream_complete`) closes any well-formed body into a protocol-satisfying
trace. -/
lemma trace_good_final (body : List Event) (cond : Prop) [Decidable cond]
    (a : String) (u : Usage)
    (hb1 : body.any isTerminal = false)
    (hb2 : body.any isTokenUsage = false)
    (hb3 : body.countP isThreadInfo ≤ 1) :
    ((body ++ (if cond then [Event.token_usage a u] else []) ++
        [Event.stream_complete]).countP isTerminal = 1) ∧
    seenBefore isTerminal (fun _ => true)
      (body ++ (if cond then [Event.token_usage a u] else []) ++
        [Event.stream_complete]) = false ∧
    seenBefore isThreadInfo isThreadInfo
      (body ++ (if cond then [Event.token_usage a u] else []) ++
        [Event.stream_complete]) = false ∧
    seenBefore isTokenUsage isThreadInfo
      (body ++ (if cond then [Event.token_usage a u] else []) ++
        [Event.stream_complete]) = false := by
  rw [List.append_assoc]
  by_cases hc : cond
  · rw [if_pos hc]
    exact trace_good body _ hb1 hb2 hb3 rfl rfl rfl rfl
  · rw [if_neg hc]
    exact trace_good body _ hb1 hb2 hb3 rfl rfl rfl rfl

/-- C1: for every execution of `stream_processor` — any request thread id,
any interleaving of intermediate callback deliveries and response fragments,
agent-initialization failure, an exception at any point of the fragment loop,
any reconciliation outcome — the enqueued trace contains exactly one terminal
frame (`stream_complete` or `error`), no frame of any kind after a terminal
frame, at most one `thread_info` frame, and no `thread_info` after a
`token_usage` frame (so `thread_info`, when present, precedes `token_usage`
and the terminal frame). -/
theorem claim_C1_stream_event_protocol (inp : ProcInput) (ledger0 : LedgerState) :
    ((stream_processor inp ledger0).1.countP isTerminal = 1) ∧
    seenBefore isTerminal (fun _ => true) (stream_processor inp ledger0).1 = false ∧
    seenBefore isThreadInfo isThreadInfo (stream_processor inp ledger0).1 = false ∧
    seenBefore isTokenUsage isThreadInfo (stream_processor inp ledger0).1 = false := by
  have hbody : bodyOk (loopState inp ledger0) :=
    runLoop_bodyOk inp.threadId (stepsTaken inp) (initLoopSt inp.threadId ledger0)
      ⟨rfl, rfl, by simp [initLoopSt]⟩
  obtain ⟨hb1, hb2, hb3⟩ := hbody
  have hb3' : (loopState inp ledger0).events.countP isThreadInfo ≤ 1 := by
    by_cases hfc : (loopState inp ledger0).first_chunk = true
    · rw [if_pos hfc] at hb3; omega
    · rw [if_neg hfc] at hb3; omega
  unfold stream_processor
  cases hag : inp.agent_ok with
  | false => exact ⟨rfl, rfl, rfl, rfl⟩
  | true =>
    simp only [Bool.not_true, Bool.false_eq_true, if_false]
    cases hexc : inp.excAt with
    | some n =>
      exact trace_good (loopState inp ledger0).events [.error inp.excMsg]
        hb1 hb2 hb3' rfl rfl rfl rfl
    | none =>
      exact trace_good_final (loopState inp ledger0).events _ _ _ hb1 hb2 hb3'

/-!  C3: streaming-time recording and the post-stream reconciliation. -/

/-- A single loop step never adds or increases a usage entry: it either
leaves a thread's entry unchanged or (on the one-time reset) removes it. -/
lemma procStep_no_usage_record (tid : String) (s : LoopSt) (step : Step)
    (k : String) :
    aget (procStep tid s step).ledger.thread_token_usage k =
        aget s.ledger.thread_token_usage k ∨
    aget (procStep tid s step).ledger.thread_token_usage k = none := by
  cases step with
  | interCall n a => left; rfl
  | interResult n r => left; rfl
  | interOther t => left; rfl
  | frag r =>
    simp only [procStep, reset_thread_tokens]
    split
    · by_cases hk : k = (match r.thread with
        | some idAttr => idAttr.getD tid
        | none => s.actual_thread_id)
      · right
        rw [hk]
        exact aget_adel_self _ _
      · left
        exact aget_adel_ne _ _ _ hk
    · left; rfl

/-- Across the whole loop, a thread's usage entry is never increased: it ends
unchanged or absent.  The streaming loop of `main.py` records no usage. -/
lemma runLoop_no_usage_record (tid : String) :
    ∀ (steps : List Step) (s : LoopSt) (k : String),
      aget (runLoop tid s steps).ledger.thread_token_usage k =
          aget s.ledger.thread_token_usage k ∨
      aget (runLoop tid s steps).ledger.thread_token_usage k = none := by
  intro steps
  induction steps with
  | nil => intro s k; left; rfl
  | cons step rest ih =>
    intro s k
    rcases ih (procStep tid s step) k with h1 | h1
    · rcases procStep_no_usage_record tid s step k with h2 | h2
      · left; rw [runLoop, h1, h2]
      · right; rw [runLoop, h1, h2]
    · right; rw [runLoop, h1]

/-- C3 counterexample: the reconciliation step adds the run's usage even when
the ledger already holds nonzero usage for the conversation when streaming
ends.  With thread `"t"` carrying `(100,50,150)`, an empty fragment stream
and a completed-run usage of `(10,5,15)`, the total after streaming is 150
but the total after reconciliation is 165, not 150 — and `stream_processor`
contains no per-invocation skip boolean: its loop records nothing and its
reconciliation is unconditional. -/
theorem claim_C3_counterexample :
    (loopState ⟨"t", true, [], none, "", some ⟨10, 5, 15⟩⟩
        ⟨[("t", ⟨100, 50, 150⟩)], []⟩).ledger.thread_token_usage =
      [("t", ⟨100, 50, 150⟩)] ∧
    aget (stream_processor ⟨"t", true, [], none, "", some ⟨10, 5, 15⟩⟩
        ⟨[("t", ⟨100, 50, 150⟩)], []⟩).2.thread_token_usage "t" =
      some ⟨110, 55, 165⟩ :=
  ⟨rfl, rfl⟩

/-- C3 (amended): the streaming loop records no usage at all (every entry is
left unchanged or removed by the one-time fresh-conversation reset), and the
post-stream reconciliation unconditionally accumulates the completed run's
usage whenever its total is strictly positive — there is no per-invocation
boolean and no skip: the final entry equals the after-loop value plus the
run's usage. -/
theorem claim_C3_reconciliation_unconditional (inp : ProcInput)
    (ledger0 : LedgerState) (u : Usage)
    (hag : inp.agent_ok = true) (hexc : inp.excAt = none)
    (hru : inp.runUsage = some u) (hpos : 0 < u.total_tokens)
    (hact : (loopState inp ledger0).actual_thread_id ≠ "") :
    (∀ k, aget (loopState inp ledger0).ledger.thread_token_usage k =
            aget ledger0.thread_token_usage k ∨
          aget (loopState inp ledger0).ledger.thread_token_usage k = none) ∧
    aget (stream_processor inp ledger0).2.thread_token_usage
        (loopState inp ledger0).actual_thread_id =
      some (addUsage
        ((aget (loopState inp ledger0).ledger.thread_token_usage
            (loopState inp ledger0).actual_thread_id).getD zeroUsage) u) := by
  constructor
  · intro k
    exact runLoop_no_usage_record inp.threadId (stepsTaken inp)
      (initLoopSt inp.threadId ledger0) k
  · unfold stream_processor
    rw [hag]
    simp only [Bool.not_true, Bool.false_eq_true, if_false, hexc]
    rw [if_pos hact]
    unfold reconcile_run_usage
    rw [hru]
    simp only [hpos, if_pos]
    exact aget_aset_self _ _ _

/-- C3 witness: the amended reconciliation theorem at the counterexample's
concrete input. -/
theorem claim_C3_reconciliation_unconditional_witness :
    aget (stream_processor ⟨"t", true, [], none, "", some ⟨10, 5, 15⟩⟩
        ⟨[("t", ⟨100, 50, 150⟩)], []⟩).2.thread_token_usage
      (loopState ⟨"t", true, [], none, "", some ⟨10, 5, 15⟩⟩
        ⟨[("t", ⟨100, 50, 150⟩)], []⟩).actual_thread_id =
      some (addUsage
        ((aget (loopState ⟨"t", true, [], none, "", some ⟨10, 5, 15⟩⟩
            ⟨[("t", ⟨100, 50, 150⟩)], []⟩).ledger.thread_token_usage
          (loopState ⟨"t", true, [], none, "", some ⟨10, 5, 15⟩⟩
            ⟨[("t", ⟨100, 50, 150⟩)], []⟩).actual_thread_id).getD zeroUsage)
        ⟨10, 5, 15⟩) :=
  (claim_C3_reconciliation_unconditional _ _ ⟨10, 5, 15⟩ rfl rfl rfl
    (by decide) (by decide)).2

/-!  C4: fresh-conversation isolation. -/

/-- A step either reveals no thread object, or reveals the one backend
thread id `X` (the normal case: the backend serves one thread per request). -/
def stepRevealFlagOnly (X : String) : Step → Bool
  | .frag r => r.thread == none || r.thread == some (some X)
  | _ => true

/-- A fragment step that actually carries the revealed thread id `X`. -/
def stepRevealFlag (X : String) : Step → Bool
  | .frag r => r.thread == some (some X)
  | _ => false

/-- Once `is_new_thread` is cleared, a fragment step changes nothing but the
event list, `first_chunk`, and possibly `actual_thread_id`. -/
lemma procStep_frag_not_new (s : LoopSt) (r : Response)
    (hn : s.is_new_thread = false) :
    (procStep "" s (.frag r)).is_new_thread = false ∧
    (procStep "" s (.frag r)).ledger = s.ledger ∧
    (procStep "" s (.frag r)).resets = s.resets ∧
    (procStep "" s (.frag r)).actual_thread_id =
      (match r.thread with
        | some idAttr => idAttr.getD ""
        | none => s.actual_thread_id) := by
  refine ⟨?_, ?_, ?_, ?_⟩ <;> simp [procStep, hn]

/-- After the one-time reset, the rest of a single-thread stream keeps
`actual_thread_id = X` and never resets again. -/
lemma runLoop_after_reveal (X : String) :
    ∀ (steps : List Step) (s : LoopSt),
      (∀ st ∈ steps, stepRevealFlagOnly X st = true) →
      s.actual_thread_id = X → s.is_new_thread = false →
      (runLoop "" s steps).actual_thread_id = X ∧
      (runLoop "" s steps).is_new_thread = false ∧
      (runLoop "" s steps).ledger = s.ledger ∧
      (runLoop "" s steps).resets = s.resets := by
  intro steps
  induction steps with
  | nil => intro s _ ha hn; exact ⟨ha, hn, rfl, rfl⟩
  | cons step rest ih =>
    intro s hall ha hn
    have hrest : ∀ st ∈ rest, stepRevealFlagOnly X st = true :=
      fun st h => hall st (List.mem_cons_of_mem _ h)
    cases step with
    | interCall n a => exact ih _ hrest ha hn
    | interResult n r => exact ih _ hrest ha hn
    | interOther t => exact ih _ hrest ha hn
    | frag r =>
      have hstep := hall _ (List.mem_cons_self _ rest)
      simp only [stepRevealFlagOnly, Bool.or_eq_true, beq_iff_eq] at hstep
      obtain ⟨hn', hl', hr', ha'⟩ := procStep_frag_not_new s r hn
      have hax : (procStep "" s (.frag r)).actual_thread_id = X := by
        rw [ha']
        cases hstep with
        | inl h => rw [h, ha]
        | inr h => rw [h]; exact rfl
      obtain ⟨g1, g2, g3, g4⟩ := ih _ hrest hax hn'
      exact ⟨g1, g2, g3.trans hl', g4.trans hr'⟩

/-- Driving a fresh request (`actual_thread_id = ""`, `is_new_thread`)
through a stream whose fragments only ever reveal the single id `X ≠ ""`,
with at least one fragment revealing it: the loop ends on `actual = X`,
performs exactly one reset — of `X` — and its only ledger effect is that
reset. -/
lemma runLoop_fresh_reveal (X : String) (hX : X ≠ "") :
    ∀ (steps : List Step) (s : LoopSt),
      (∀ st ∈ steps, stepRevealFlagOnly X st = true) →
      steps.any (stepRevealFlag X) = true →
      s.actual_thread_id = "" → s.is_new_thread = true → s.resets = [] →
      (runLoop "" s steps).actual_thread_id = X ∧
      (runLoop "" s steps).is_new_thread = false ∧
      (runLoop "" s steps).resets = [X] ∧
      (runLoop "" s steps).ledger = reset_thread_tokens s.ledger X := by
  intro steps
  induction steps with
  | nil => intro s _ hany; cases hany
  | cons step rest ih =>
    intro s hall hany ha hn hr
    have hrest : ∀ st ∈ rest, stepRevealFlagOnly X st = true :=
      fun st h => hall st (List.mem_cons_of_mem _ h)
    cases step with
    | interCall n a =>
      refine ih _ hrest ?_ ha hn hr
      simpa [stepRevealFlag] using hany
    | interResult n r =>
      refine ih _ hrest ?_ ha hn hr
      simpa [stepRevealFlag] using hany
    | interOther t =>
      refine ih _ hrest ?_ ha hn hr
      simpa [stepRevealFlag] using hany
    | frag r =>
      have hstep := hall _ (List.mem_cons_self _ rest)
      simp only [stepRevealFlagOnly, Bool.or_eq_true, beq_iff_eq] at hstep
      cases hstep with
      | inl hnone =>
        have f1 : (procStep "" s (.frag r)).actual_thread_id = "" := by
          simp [procStep, hnone, ha]
        have f2 : (procStep "" s (.frag r)).is_new_thread = true := by
          simp [procStep, hnone, ha, hn]
        have f3 : (procStep "" s (.frag r)).resets = [] := by
          simp [procStep, hnone, ha, hn, hr]
        have f4 : (procStep "" s (.frag r)).ledger = s.ledger := by
          simp [procStep, hnone, ha, hn]
        have hany' : rest.any (stepRevealFlag X) = true := by
          have hflag : stepRevealFlag X (.frag r) = false := by
            simp [stepRevealFlag, hnone]
          simpa [hflag] using hany
        obtain ⟨g1, g2, g3, g4⟩ := ih _ hrest hany' f1 f2 f3
        exact ⟨g1, g2, g3, g4.trans (by rw [f4])⟩
      | inr hX' =>
        have f1 : (procStep "" s (.frag r)).actual_thread_id = X := by
          simp [procStep, hX']
        have f2 : (procStep "" s (.frag r)).is_new_thread = false := by
          simp [procStep, hX', hn, hX]
        have f3 : (procStep "" s (.frag r)).resets = [X] := by
          simp [procStep, hX', hn, hr, hX]
        have f4 : (procStep "" s (.frag r)).ledger =
            reset_thread_tokens s.ledger X := by
          simp [procStep, hX', hn, hX]
        obtain ⟨g1, g2, g3, g4⟩ := runLoop_after_reveal X rest _ hrest f1 f2
        exact ⟨g1, g2, g4.trans f3, g3.trans f4⟩

lemma addUsage_zero (u : Usage) : addUsage zeroUsage u = u := by
  cases u
  simp [addUsage, zeroUsage]

/-- C4: a request arriving with an empty conversation id, whose backend
stream reveals the single thread id `X ≠ ""` (on one or more fragments) and
whose completed run reports positive usage `u`, resets `X`'s ledger entry
exactly once — before any recording — so that, whatever usage a colliding
prior conversation had accumulated under `X` in `ledger0`, the final entry
for `X` is exactly this request's contribution `u`. -/
theorem claim_C4_fresh_thread_isolation (inp : ProcInput)
    (ledger0 : LedgerState) (X : String) (u : Usage)
    (hemp : inp.threadId = "") (hag : inp.agent_ok = true)
    (hexc : inp.excAt = none) (hX : X ≠ "")
    (hall : ∀ st ∈ inp.steps, stepRevealFlagOnly X st = true)
    (hany : inp.steps.any (stepRevealFlag X) = true)
    (hru : inp.runUsage = some u) (hpos : 0 < u.total_tokens) :
    (loopState inp ledger0).resets = [X] ∧
    (loopState inp ledger0).actual_thread_id = X ∧
    aget (loopState inp ledger0).ledger.thread_token_usage X = none ∧
    aget (stream_processor inp ledger0).2.thread_token_usage X = some u := by
  have hst : stepsTaken inp = inp.steps := by
    unfold stepsTaken; rw [hexc]
  have hinit1 : (initLoopSt inp.threadId ledger0).actual_thread_id = "" := hemp
  have hinit2 : (initLoopSt inp.threadId ledger0).is_new_thread = true := by
    simp [initLoopSt, hemp]
  have hinit3 : (initLoopSt inp.threadId ledger0).resets = [] := rfl
  have hloop : (loopState inp ledger0).actual_thread_id = X ∧
      (loopState inp ledger0).is_new_thread = false ∧
      (loopState inp ledger0).resets = [X] ∧
      (loopState inp ledger0).ledger =
        reset_thread_tokens (initLoopSt inp.threadId ledger0).ledger X := by
    unfold loopState
    rw [hst, hemp]
    have := runLoop_fresh_reveal X hX inp.steps
      (initLoopSt inp.threadId ledger0) hall hany hinit1 hinit2 hinit3
    rw [hemp] at this
    exact this
  obtain ⟨hactX, hnew, hresets, hledger⟩ := hloop
  have habs : aget (loopState inp ledger0).ledger.thread_token_usage X = none := by
    rw [hledger]
    exact aget_adel_self _ _
  refine ⟨hresets, hactX, habs, ?_⟩
  unfold stream_processor
  rw [hag]
  simp only [Bool.not_true, Bool.false_eq_true, if_false, hexc]
  rw [if_pos (by rw [hactX]; exact hX)]
  unfold reconcile_run_usage
  rw [hru]
  simp only [hpos, if_pos]
  rw [hactX, habs, aget_aset_self]
  simp [addUsage_zero]

/-- C4 witness: empty incoming id, backend reveals `"X"` which collides with
a prior entry of `(999,1,1000)`; the final entry is exactly the new run's
`(10,5,15)` and the reset happened exactly once. -/
theorem claim_C4_fresh_thread_isolation_witness :
    (loopState ⟨"", true,
        [Step.frag ⟨none, none, none, some (some "X"), some "hello", some "Agent"⟩],
        none, "", some ⟨10, 5, 15⟩⟩
      ⟨[("X", ⟨999, 1, 1000⟩)], []⟩).resets = ["X"] ∧
    (loopState ⟨"", true,
        [Step.frag ⟨none, none, none, some (some "X"), some "hello", some "Agent"⟩],
        none, "", some ⟨10, 5, 15⟩⟩
      ⟨[("X", ⟨999, 1, 1000⟩)], []⟩).actual_thread_id = "X" ∧
    aget (loopState ⟨"", true,
        [Step.frag ⟨none, none, none, some (some "X"), some "hello", some "Agent"⟩],
        none, "", some ⟨10, 5, 15⟩⟩
      ⟨[("X", ⟨999, 1, 1000⟩)], []⟩).ledger.thread_token_usage "X" = none ∧
    aget (stream_processor ⟨"", true,
        [Step.frag ⟨none, none, none, some (some "X"), some "hello", some "Agent"⟩],
        none, "", some ⟨10, 5, 15⟩⟩
      ⟨[("X", ⟨999, 1, 1000⟩)], []⟩).2.thread_token_usage "X" =
      some ⟨10, 5, 15⟩ :=
  claim_C4_fresh_thread_isolation _ _ "X" ⟨10, 5, 15⟩ rfl rfl rfl
    (by decide) (by decide) (by decide) rfl (by decide)
